import Mathlib

/-!
Shallow embedding of `\.github/workflows/scripts/generate_daily_code.py`
(the templated daily-snippet generator of dipin130k/daily-python-code),
together with theorems checking the repository specification against it.

The pseudo-random generator `random.Random` is modelled as a deterministic
stream of naturals together with a read position; `random.Random(seed)` is
modelled as an arbitrary deterministic function from the seed to such a
state, kept as an explicit parameter.  All filesystem state is modelled
explicitly (lists of existing paths, index file content as a string).
-/

namespace DailyGen

set_option maxRecDepth 8192

/-- Deterministic pseudo-random generator state: a stream of naturals and a
read position.  Models a `random.Random` instance; each primitive draw
consumes one stream element. -/
structure RNG where
  stream : Nat → Nat
  pos : Nat

/-- One raw draw from the generator. -/
def RNG.next (r : RNG) : Nat × RNG :=
  (r.stream r.pos, ⟨r.stream, r.pos + 1⟩)

/-- Models `rng.randint(lo, hi)`: one draw, mapped into `[lo, hi]`. -/
def randint (lo hi : Int) (r : RNG) : Int × RNG :=
  let p := r.next
  (lo + ((p.1 % (hi - lo + 1).toNat : Nat) : Int), p.2)

/-- Models `rng.choice(xs)` on a nonempty sequence: one draw, used as an
index into `xs`.  The default is returned only for an empty list, which no
call site of the script produces. -/
def choiceD (xs : List α) (dflt : α) (r : RNG) : α × RNG :=
  let p := r.next
  (xs.getD (p.1 % xs.length) dflt, p.2)

/-- Draw `k` values in sequence with the draw function `draw`, threading the
generator state.  Models a `for _ in range(k)` comprehension of draws. -/
def drawList (k : Nat) (draw : RNG → α × RNG) (r : RNG) : List α × RNG :=
  match k with
  | 0 => ([], r)
  | k + 1 =>
    let p := draw r
    let q := drawList k draw p.2
    (p.1 :: q.1, q.2)

/-- A Python value produced by a parameter generator (the script only ever
produces ints, strings, flat int lists and int grids). -/
inductive PyVal where
  | int (i : Int)
  | str (s : String)
  | listInt (l : List Int)
  | grid (g : List (List Int))
deriving DecidableEq

/-- One segment of a template code body, as consumed by `str.format`: either
literal text or a `\x7bNAME\x7d` placeholder. -/
inductive Seg where
  | lit (s : String)
  | hole (name : String)
deriving DecidableEq

/-- A template record: `name`, `desc`, the (dedented) `code` body split at
its placeholders, and the parameter generator `params`. -/
structure Template where
  name : String
  desc : String
  code : List Seg
  params : RNG → List (String × PyVal)

/-- Dedented code body of the `fibonacci_iterative` template, split at its
format placeholders. -/
def fibCode : List Seg :=
  [Seg.lit "\ndef fibonacci(n: int) -> list[int]:\n    \"\"\"Return the first n Fibonacci numbers (n>=1).\"\"\"\n    if n <= 0:\n        return []\n    if n == 1:\n        return [0]\n    seq = [0, 1]\n    for _ in range(2, n):\n        seq.append(seq[-1] + seq[-2])\n    return seq\nif __name__ == \"__main__\":\n    N = ",
   Seg.hole "N",
   Seg.lit "\n    print(f\"Fibonacci first ",
   Seg.hole "N",
   Seg.lit ": \", fibonacci(N))\n"]

/-- Parameter generator of `fibonacci_iterative`: `lambda r: ...N... r.randint(8, 20)`. -/
def fibParams (r : RNG) : List (String × PyVal) :=
  let pN := randint 8 20 r
  [("N", PyVal.int pN.1)]

/-- Dedented code body of the `sieve_of_eratosthenes` template. -/
def sieveCode : List Seg :=
  [Seg.lit "\ndef primes_up_to(limit: int) -> list[int]:\n    \"\"\"Return all primes <= limit using the sieve.\"\"\"\n    if limit < 2:\n        return []\n    sieve = [True] * (limit + 1)\n    sieve[0] = sieve[1] = False\n    p = 2\n",
   Seg.lit "    while p * p <= limit:\n        if sieve[p]:\n            for m in range(p * p, limit + 1, p):\n                sieve[m] = False\n        p += 1\n    return [i for i, is_prime in enumerate(sieve) if is_prime]\nif __name__ == \"__main__\":\n    LIMIT = ",
   Seg.hole "LIMIT",
   Seg.lit "\n    print(f\"Primes up to ",
   Seg.hole "LIMIT",
   Seg.lit ": \", primes_up_to(LIMIT))\n"]

/-- Parameter generator of `sieve_of_eratosthenes`: `r.randint(50, 200)`. -/
def sieveParams (r : RNG) : List (String × PyVal) :=
  let pL := randint 50 200 r
  [("LIMIT", PyVal.int pL.1)]

/-- Dedented code body of the `merge_sort` template. -/
def mergeSortCode : List Seg :=
  [Seg.lit "\nfrom typing import List, TypeVar\nT = TypeVar(\x27T\x27)\n\ndef merge_sort(arr: List[T]) -> List[T]:\n    if len(arr) <= 1:\n        return arr[:]\n    mid = len(arr) // 2\n    left = merge_sort(arr[:mid])\n    right = merge_sort(arr[mid:])\n    return merge(left, right)\n\n",
   Seg.lit "def merge(left: List[T], right: List[T]) -> List[T]:\n    i = j = 0\n    out: List[T] = []\n    while i < len(left) and j < len(right):\n        if left[i] <= right[j]:\n            out.append(left[i]); i += 1\n        else:\n            out.append(right[j]); j += 1\n    out.extend(left[i:]); out.extend(right[j:])\n    return out\n\nif __name__ == \"__main__\":\n    data = ",
   Seg.hole "DATA",
   Seg.lit "\n    print(\"Input:\", data)\n    print(\"Sorted:\", merge_sort(data))\n"]

/-- Parameter generator of `merge_sort`:
`sorted(\x7br.randint(-50, 50) for _ in range(r.randint(8, 14))\x7d) or [0]`.
The set comprehension draws `randint(8, 14)` values; `sorted(set(...))` is
the ascending listing of the distinct drawn values, and `or [0]`
substitutes `[0]` when that listing is empty. -/
def mergeSortParams (r : RNG) : List (String × PyVal) :=
  let pCnt := randint 8 14 r
  let pVals := drawList pCnt.1.toNat (randint (-50) 50) pCnt.2
  let s := List.insertionSort (fun a b : Int => a ≤ b) pVals.1.dedup
  [("DATA", PyVal.listInt (if s.isEmpty then [0] else s))]

/-- Dedented code body of the `levenshtein_distance` template. -/
def levCode : List Seg :=
  [Seg.lit "\ndef levenshtein(a: str, b: str) -> int:\n    \"\"\"Return edit distance between a and b.\"\"\"\n    if a == b:\n        return 0\n    if not a:\n        return len(b)\n    if not b:\n        return len(a)\n    prev = list(range(len(b) + 1))\n",
   Seg.lit "    for i, ca in enumerate(a, 1):\n        curr = [i]\n        for j, cb in enumerate(b, 1):\n            ins = curr[j-1] + 1\n            delete = prev[j] + 1\n            subst = prev[j-1] + (ca != cb)\n            curr.append(min(ins, delete, subst))\n        prev = curr\n    return prev[-1]\n\nif __name__ == \"__main__\":\n    A = \"",
   Seg.hole "A",
   Seg.lit "\"\n    B = \"",
   Seg.hole "B",
   Seg.lit "\"\n    print(f\"levenshtein(\x27",
   Seg.hole "A",
   Seg.lit "\x27,\x27",
   Seg.hole "B",
   Seg.lit "\x27) =\", levenshtein(A, B))\n"]

/-- Parameter generator of `levenshtein_distance`: `A` is a string of
`randint(4, 7)` characters chosen from `"codecraft"`, `B` likewise from
`"workflows"`. -/
def levParams (r : RNG) : List (String × PyVal) :=
  let pLa := randint 4 7 r
  let pAs := drawList pLa.1.toNat (choiceD "codecraft".data (Char.ofNat 97)) pLa.2
  let pLb := randint 4 7 pAs.2
  let pBs := drawList pLb.1.toNat (choiceD "workflows".data (Char.ofNat 97)) pLb.2
  [("A", PyVal.str (String.mk pAs.1)), ("B", PyVal.str (String.mk pBs.1))]

/-- Dedented code body of the `dijkstra_on_grid` template. -/
def dijkstraCode : List Seg :=
  [Seg.lit "\nimport heapq\nfrom typing import Tuple, List\n\ndef neighbors(r: int, c: int, R: int, C: int):\n    for dr, dc in ((1,0),(-1,0),(0,1),(0,-1)):\n        nr, nc = r+dr, c+dc\n        if 0 <= nr < R and 0 <= nc < C:\n            yield nr, nc\n\n",
   Seg.lit "def dijkstra(grid: List[List[int]], start=(0,0), goal=None) -> int:\n    R, C = len(grid), len(grid[0])\n    if goal is None: goal = (R-1, C-1)\n    dist = [[float(\x27inf\x27)]*C for _ in range(R)]\n    sr, sc = start\n    dist[sr][sc] = grid[sr][sc]\n    pq: List[Tuple[int,int,int]] = [(grid[sr][sc], sr, sc)]\n",
   Seg.lit "    while pq:\n        d, r, c = heapq.heappop(pq)\n        if (r,c) == goal:\n            return d\n        if d != dist[r][c]:\n            continue\n        for nr, nc in neighbors(r,c,R,C):\n            nd = d + grid[nr][nc]\n            if nd < dist[nr][nc]:\n                dist[nr][nc] = nd\n                heapq.heappush(pq, (nd, nr, nc))\n    return -1\n\nif __name__ == \"__main__\":\n    grid = ",
   Seg.hole "GRID",
   Seg.lit "\n    print(\"Grid:\")\n    for row in grid: print(row)\n    print(\"Min path cost:\", dijkstra(grid))\n"]

/-- One row of the dijkstra grid:
`[r.randint(1, 9) for _ in range(r.randint(4, 6))]`.  The column count is
drawn afresh for each row. -/
def dijkstraRow (r : RNG) : List Int × RNG :=
  let pC := randint 4 6 r
  drawList pC.1.toNat (randint 1 9) pC.2

/-- Parameter generator of `dijkstra_on_grid`:
`[[r.randint(1, 9) for _ in range(r.randint(4, 6))] for __ in range(r.randint(4, 6))]`.
The outer `randint(4, 6)` (row count) is drawn first, then each row draws
its own column count followed by its entries. -/
def dijkstraParams (r : RNG) : List (String × PyVal) :=
  let pR := randint 4 6 r
  let pG := drawList pR.1.toNat dijkstraRow pR.2
  [("GRID", PyVal.grid pG.1)]

/-- The `fibonacci_iterative` template record. -/
def fibTemplate : Template :=
  { name := "fibonacci_iterative",
    desc := "Compute the first N Fibonacci numbers iteratively.",
    code := fibCode, params := fibParams }

/-- The `sieve_of_eratosthenes` template record. -/
def sieveTemplate : Template :=
  { name := "sieve_of_eratosthenes",
    desc := "Generate primes up to a limit using the Sieve of Eratosthenes.",
    code := sieveCode, params := sieveParams }

/-- The `merge_sort` template record. -/
def mergeSortTemplate : Template :=
  { name := "merge_sort",
    desc := "Stable merge sort implementation with type hints.",
    code := mergeSortCode, params := mergeSortParams }

/-- The `levenshtein_distance` template record. -/
def levTemplate : Template :=
  { name := "levenshtein_distance",
    desc := "Compute Levenshtein (edit) distance between two strings.",
    code := levCode, params := levParams }

/-- The `dijkstra_on_grid` template record. -/
def dijkstraTemplate : Template :=
  { name := "dijkstra_on_grid",
    desc := "Dijkstra shortest path on a small weighted grid (no deps).",
    code := dijkstraCode, params := dijkstraParams }

/-- The fixed template registry built inside `pick_template`. -/
def templates : List Template :=
  [fibTemplate, sieveTemplate, mergeSortTemplate, levTemplate, dijkstraTemplate]

/-- Models `pick_template(rng)`: `rng.choice(templates)`, one draw used as
an index into the nonempty registry (the default is unreachable since the
index is reduced modulo the length). -/
def pickTemplate (r : RNG) : Template × RNG :=
  let p := r.next
  (templates.getD (p.1 % templates.length) fibTemplate, p.2)

/-- Models `today_seed()` = `int(datetime.utcnow().strftime("%Y%m%d"))`:
for a four-digit year and zero-padded month and day, the integer value of
the concatenated digit string is `y * 10000 + m * 100 + d`. -/
def seedOfDate (y m d : Nat) : Nat :=
  y * 10000 + m * 100 + d

/-- The selection part of `main()` run from a given seed: seed the
generator, pick a template, then run its parameter generator on the same
generator instance.  `mt` models the seeding map `seed ->` initial
`random.Random` state (a fixed deterministic algorithm). -/
def generateFromSeed (mt : Nat → RNG) (seed : Nat) : Template × List (String × PyVal) :=
  let r := mt seed
  let p := pickTemplate r
  (p.1, p.1.params p.2)

/-- The selection part of `main()` run on a given UTC date. -/
def dailyGeneration (mt : Nat → RNG) (y m d : Nat) : Template × List (String × PyVal) :=
  generateFromSeed mt (seedOfDate y m d)

/-- Models `str.format` on the split body: each literal is kept, each
placeholder is replaced by its mapped value; a missing placeholder value
(Python `KeyError`) yields `none`. -/
def renderSegs : List Seg → (String → Option String) → Option String
  | [], _ => some ""
  | Seg.lit s :: rest, m => (renderSegs rest m).map (fun t => s ++ t)
  | Seg.hole n :: rest, m =>
    match m n with
    | none => none
    | some v => (renderSegs rest m).map (fun t => v ++ t)

/-- Models `.lstrip("\n")`: drop leading newline characters. -/
def lstripNL (s : String) : String :=
  String.mk (s.data.dropWhile (fun c => c == Char.ofNat 10))

/-- Models Python `str.title()` restricted to ASCII input: the first
alphabetic character of each alphabetic run is upper-cased, the rest are
lower-cased. -/
def titleAux : Bool → List Char → List Char
  | _, [] => []
  | prevAlpha, c :: cs =>
    (if c.isAlpha then (if prevAlpha then c.toLower else c.toUpper) else c)
      :: titleAux c.isAlpha cs

/-- Models `t["name"].replace("_", " ").title()`. -/
def pyTitle (s : String) : String :=
  String.mk (titleAux false (s.data.map (fun c => if c == Char.ofNat 95 then Char.ofNat 32 else c)))

/-- The header block built in `main()` (an f-string with the title-cased
name, the date string and the description). -/
def headerFor (name desc dateStr : String) : String :=
  "\"\"\"\nTitle: " ++ pyTitle name ++ "\nDate: " ++ dateStr ++ "\nDescription: "
    ++ desc ++ "\nThis file was auto-generated by scripts/generate_daily_code.py\n\"\"\"\n"

/-- The rendered file content of `main()`:
`header + textwrap.dedent(t["code"]).format(**params).lstrip("\n")`,
with `none` when a placeholder value is missing. -/
def renderFile (t : Template) (m : String → Option String) (dateStr : String) : Option String :=
  (renderSegs t.code m).map (fun body => headerFor t.name t.desc dateStr ++ lstripNL body)

/-- `s` contains neither `\x7b` nor `\x7d`. -/
def braceFree (s : String) : Prop :=
  ∀ c ∈ s.data, c ≠ Char.ofNat 123 ∧ c ≠ Char.ofNat 125

instance (s : String) : Decidable (braceFree s) := by
  unfold braceFree; infer_instance

/-- Boolean check that a segment, if literal, is brace-free. -/
def segLitBraceFreeB : Seg → Bool
  | Seg.lit s => decide (braceFree s)
  | Seg.hole _ => true

/-- The placeholder marker text `\x7bnm\x7d`. -/
def marker (nm : String) : String :=
  String.mk (Char.ofNat 123 :: (nm.data ++ [Char.ofNat 125]))

/-- `out` contains the unresolved placeholder marker `\x7bnm\x7d` as a
substring. -/
def containsMarker (out nm : String) : Prop :=
  (marker nm).data <:+: out.data

instance (out nm : String) : Decidable (containsMarker out nm) := by
  unfold containsMarker; infer_instance

/-- Little-endian decimal digits with explicit fuel (`fuel > n` suffices). -/
def decDigitsRevFuel : Nat → Nat → List Nat
  | 0, _ => []
  | fuel + 1, n => if n < 10 then [n] else n % 10 :: decDigitsRevFuel fuel (n / 10)

/-- Little-endian decimal digits of `n` (`[n]` when `n < 10`). -/
def decDigitsRev (n : Nat) : List Nat :=
  decDigitsRevFuel (n + 1) n

/-- The ASCII digit character for `d < 10`. -/
def digitChar (d : Nat) : Char :=
  Char.ofNat (48 + d)

/-- Decimal rendering of a natural number, as Python `str` produces inside
an f-string. -/
def decStr (n : Nat) : String :=
  String.mk ((decDigitsRev n).reverse.map digitChar)

/-- The base output file name `f"\x7bdate_str\x7d_\x7bslug\x7d.py"` of `main()`. -/
def baseName (dateStr slug : String) : String :=
  dateStr ++ "_" ++ slug ++ ".py"

/-- The suffixed output file name `f"\x7bdate_str\x7d_\x7bslug\x7d_v\x7bc\x7d.py"` of `main()`. -/
def versionName (dateStr slug : String) (c : Nat) : String :=
  dateStr ++ "_" ++ slug ++ "_v" ++ decStr c ++ ".py"

/-- The `while out_path.exists()` loop of `main()`, trying `_v2`, `_v3`, …
The loop terminates because the candidate names are pairwise distinct while
the set of existing paths is finite; `fuel` is an upper bound on the number
of iterations, chosen large enough in `resolvePath` (proved sufficient in
`resolvePath_spec`). -/
def resolveLoop (dateStr slug : String) (existing : List String) : Nat → Nat → String
  | 0, c => versionName dateStr slug c
  | fuel + 1, c =>
    if versionName dateStr slug c ∈ existing then
      resolveLoop dateStr slug existing fuel (c + 1)
    else versionName dateStr slug c

/-- The output path computation of `main()`: the base name if it is free,
otherwise the first free `_v2`, `_v3`, … candidate. -/
def resolvePath (dateStr slug : String) (existing : List String) : String :=
  if baseName dateStr slug ∈ existing then
    resolveLoop dateStr slug existing (existing.length + 1) 2
  else baseName dateStr slug

/-- Filesystem scaffolding state seen by `ensure_index()`: the output
directory, the `.gitkeep` marker, and the index file content (`none` when
the file does not exist). -/
structure FS where
  outDir : Bool
  gitkeep : Bool
  index : Option String
deriving DecidableEq

/-- The header written when the index file is first created. -/
def indexHeader : String :=
  "# Daily Python Code\n\nAuto-generated snippets, one per day.\n\n"

/-- Models `ensure_index()`: create the directory and `.gitkeep`, and write
the header only when the index file does not yet exist. -/
def ensureIndex (fs : FS) : FS :=
  { outDir := true, gitkeep := true,
    index := match fs.index with
             | some s => some s
             | none => some indexHeader }

/-- The three characters `U+00E2 U+20AC U+201D` that the source file of
`update_index` contains between `)` and the description (the UTF-8 bytes of
an em dash mis-decoded as Windows-1252 and re-encoded, i.e. mojibake). -/
def mojibakeDash : String :=
  "â€”"

/-- The index entry line built by `update_index`:
`f"- \x7bnow\x7d: [\x7btitle\x7d](\x7brel_path\x7d) â€” \x7bdesc\x7d\n"`. -/
def indexLine (now title rel desc : String) : String :=
  "- " ++ now ++ ": [" ++ title ++ "](" ++ rel ++ ") " ++ mojibakeDash ++ " " ++ desc ++ "\n"

/-- Models `update_index`: append the entry line to the index content. -/
def updateIndex (content now title rel desc : String) : String :=
  content ++ indexLine now title rel desc

/-- Modelled from the spec (section 6, Index file format): one line per
generation event of the exact form
`- <timestamp>: [<title>](<relative path>) <em dash> <description>`,
with a real em dash `U+2014`.  Used to compare the spec format against the
source's `indexLine`. -/
def specIndexLine (now title rel desc : String) : String :=
  "- " ++ now ++ ": [" ++ title ++ "](" ++ rel ++ ") " ++ "—" ++ " " ++ desc ++ "\n"

/-- The write phase of `main()` after template selection, on explicit
filesystem state: render the file; on success resolve a free path, record
the new file and append the index line (title is the raw template name).
A rendering error propagates: nothing is written. -/
def mainModel (t : Template) (m : String → Option String) (dateStr slug now : String)
    (files : List String) (index : String) : Option (String × List String × String) :=
  match renderFile t m dateStr with
  | none => none
  | some content =>
    let path := resolvePath dateStr slug files
    some (content, path :: files, updateIndex index now t.name path t.desc)

/-- The mathematical Fibonacci sequence, `fib 0 = 0`, `fib 1 = 1`. -/
def fib : Nat → Nat
  | 0 => 0
  | 1 => 1
  | n + 2 => fib n + fib (n + 1)

/-- The first `k` Fibonacci numbers (the specification of the template's
`fibonacci` function). -/
def firstFibs (k : Nat) : List Int :=
  (List.range k).map (fun i => (fib i : Int))

/-- The `for _ in range(2, n)` loop of the template's `fibonacci` function:
append `seq[-1] + seq[-2]` to the sequence `k` times. -/
def fibLoop : Nat → List Int → List Int
  | 0, seq => seq
  | k + 1, seq =>
    fibLoop k (seq ++ [seq.getD (seq.length - 1) 0 + seq.getD (seq.length - 2) 0])

/-- The `fibonacci` function defined in the `fibonacci_iterative` template
body, on Python integers. -/
def pyFibonacci (n : Int) : List Int :=
  if n ≤ 0 then []
  else if n = 1 then [0]
  else fibLoop (n - 2).toNat [0, 1]

/-- Value of a little-endian decimal digit list. -/
def valLE : List Nat → Nat
  | [] => 0
  | d :: ds => d + 10 * valLE ds

/-- Newline-free string. -/
def noNewline (s : String) : Prop :=
  Char.ofNat 10 ∉ s.data

instance (s : String) : Decidable (noNewline s) := by
  unfold noNewline; infer_instance

/-- Em-dash-free string. -/
def emDashFree (s : String) : Prop :=
  Char.ofNat 8212 ∉ s.data

instance (s : String) : Decidable (emDashFree s) := by
  unfold emDashFree; infer_instance

/-- A parameter mapping that supplies a (brace-containing) value for the
single placeholder `N` of the fibonacci template. -/
def mapWithBraces : String → Option String :=
  fun n => if n = "N" then some "\x7bM\x7d" else none

/-- Boolean check that the mapping `m` supplies a value for every
placeholder of the segment list. -/
def coversB (m : String → Option String) (segs : List Seg) : Bool :=
  segs.all (fun seg => match seg with
    | Seg.hole n => (m n).isSome
    | Seg.lit _ => true)

/-- The index line format of the spec with the em dash replaced by the
three mojibake characters the source actually contains (the amendment
forced by `index_line_format_counterexample`). -/
def specIndexLineAmended (now title rel desc : String) : String :=
  "- " ++ now ++ ": [" ++ title ++ "](" ++ rel ++ ") " ++ "â€”" ++ " " ++ desc ++ "\n"

/- ------------------------------------------------------------------ -/
/- Theorems.                                                           -/
/- ------------------------------------------------------------------ -/

/-- Claim C1: for a fixed UTC date the generated seed is
`int(YYYYMMDD)`, it alone initializes the pseudo-random generator, and
template choice and parameter generation draw only from that generator:
any two invocations whose dates yield the same seed produce the same
template and the same parameter values. -/
theorem daily_generation_deterministic :
    ∀ (mt : Nat → RNG) (y1 m1 d1 y2 m2 d2 : Nat),
      seedOfDate y1 m1 d1 = seedOfDate y2 m2 d2 →
      dailyGeneration mt y1 m1 d1 = dailyGeneration mt y2 m2 d2 := by
  intro mt y1 m1 d1 y2 m2 d2 h
  unfold dailyGeneration
  rw [h]

/-- Witness for `daily_generation_deterministic`: two invocations on
2024-01-01 with a concrete seeding map. -/
theorem daily_generation_deterministic_witness :
    seedOfDate 2024 1 1 = seedOfDate 2024 1 1 ∧
    dailyGeneration (fun s => ⟨fun _ => s, 0⟩) 2024 1 1
      = dailyGeneration (fun s => ⟨fun _ => s, 0⟩) 2024 1 1 :=
  ⟨rfl, daily_generation_deterministic (fun s => ⟨fun _ => s, 0⟩) 2024 1 1 2024 1 1 rfl⟩

/-- Claim C9: scaffolding is idempotent — when the index file already
exists, `ensure_index` leaves its content byte-for-byte unchanged (no
second header), and running the scaffolding twice equals running it
once. -/
theorem ensure_index_idempotent :
    (∀ fs s, fs.index = some s → (ensureIndex fs).index = some s) ∧
    (∀ fs, ensureIndex (ensureIndex fs) = ensureIndex fs) := by
  constructor
  · intro fs s h
    simp [ensureIndex, h]
  · intro fs
    cases h : fs.index <;> simp [ensureIndex, h]

/-- Witness for `ensure_index_idempotent` on a filesystem whose index
already holds some content. -/
theorem ensure_index_idempotent_witness :
    (FS.mk false false (some "existing content")).index = some "existing content" ∧
    (ensureIndex (FS.mk false false (some "existing content"))).index
      = some "existing content" :=
  ⟨rfl, ensure_index_idempotent.1 _ "existing content" rfl⟩

/-- Claim C7: the index is append-only — `update_index` appends exactly
the entry line, the previous content is an unchanged prefix of the result,
and (for newline-free components) the appended text contains exactly one
newline, at its end. -/
theorem index_append_only :
    (∀ content now title rel desc,
       updateIndex content now title rel desc = content ++ indexLine now title rel desc ∧
       content.data <+: (updateIndex content now title rel desc).data) ∧
    (∀ now title rel desc, noNewline now → noNewline title → noNewline rel →
       noNewline desc →
       (indexLine now title rel desc).data.count (Char.ofNat 10) = 1 ∧
       (indexLine now title rel desc).data.getLast? = some (Char.ofNat 10)) := by
  constructor
  · intro content now title rel desc
    refine ⟨rfl, ?_⟩
    simp [updateIndex, String.data_append]
  · intro now title rel desc h1 h2 h3 h4
    have e1 : now.data.count (Char.ofNat 10) = 0 := List.count_eq_zero.mpr h1
    have e2 : title.data.count (Char.ofNat 10) = 0 := List.count_eq_zero.mpr h2
    have e3 : rel.data.count (Char.ofNat 10) = 0 := List.count_eq_zero.mpr h3
    have e4 : desc.data.count (Char.ofNat 10) = 0 := List.count_eq_zero.mpr h4
    constructor
    · simp [indexLine, mojibakeDash, String.data_append, List.count_append,
        e1, e2, e3, e4]
    · have hdata : (indexLine now title rel desc).data
          = ("- " ++ now ++ ": [" ++ title ++ "](" ++ rel ++ ") " ++ mojibakeDash
              ++ " " ++ desc).data ++ [Char.ofNat 10] := by
        simp [indexLine, String.data_append]
      rw [hdata, List.getLast?_concat]

/-- Witness for `index_append_only` at concrete index content and entry
components. -/
theorem index_append_only_witness :
    noNewline "2024-01-01 00:00 UTC" ∧ noNewline "merge_sort" ∧
    noNewline "daily_code/2024/a.py" ∧ noNewline "Stable merge sort." ∧
    (indexLine "2024-01-01 00:00 UTC" "merge_sort" "daily_code/2024/a.py"
        "Stable merge sort.").data.count (Char.ofNat 10) = 1 :=
  ⟨by decide, by decide, by decide, by decide,
   (index_append_only.2 "2024-01-01 00:00 UTC" "merge_sort" "daily_code/2024/a.py"
      "Stable merge sort." (by decide) (by decide) (by decide) (by decide)).1⟩

/-- Claim C8 counterexample: at concrete arguments, the line built by
`update_index` is not of the spec's exact form — the source file contains
the mojibake characters `U+00E2 U+20AC U+201D` where the spec requires an
em dash. -/
theorem index_line_format_counterexample :
    indexLine "2024-01-01 00:00 UTC" "fibonacci_iterative"
        "daily_code/2024/2024-01-01_fibonacci_iterative.py"
        "Compute the first N Fibonacci numbers iteratively."
      ≠ specIndexLine "2024-01-01 00:00 UTC" "fibonacci_iterative"
        "daily_code/2024/2024-01-01_fibonacci_iterative.py"
        "Compute the first N Fibonacci numbers iteratively." := by
  decide

/-- Claim C8 (amended): every appended line has the exact form
`- <timestamp>: [<title>](<relative path>) â€” <description>` — a Markdown
bullet, timestamp, linked title, relative path and description as the spec
says, but with the three mojibake characters `U+00E2 U+20AC U+201D` between
path and description instead of an em dash; for em-dash-free components the
line contains no em dash at all. -/
theorem index_line_format_amended :
    ∀ now title rel desc,
      indexLine now title rel desc = specIndexLineAmended now title rel desc ∧
      (emDashFree now → emDashFree title → emDashFree rel → emDashFree desc →
        Char.ofNat 8212 ∉ (indexLine now title rel desc).data) := by
  intro now title rel desc
  refine ⟨rfl, ?_⟩
  intro h1 h2 h3 h4
  unfold emDashFree at h1 h2 h3 h4
  simp [indexLine, mojibakeDash, String.data_append, List.mem_append, h1, h2, h3, h4]

/-- Witness for `index_line_format_amended` at concrete components. -/
theorem index_line_format_amended_witness :
    emDashFree "ts" ∧ emDashFree "ti" ∧ emDashFree "rel" ∧ emDashFree "de" ∧
    Char.ofNat 8212 ∉ (indexLine "ts" "ti" "rel" "de").data :=
  ⟨by decide, by decide, by decide, by decide,
   (index_line_format_amended "ts" "ti" "rel" "de").2
     (by decide) (by decide) (by decide) (by decide)⟩

theorem firstFibs_length (k : Nat) : (firstFibs k).length = k := by
  simp [firstFibs]

theorem firstFibs_getD (k i : Nat) (h : i < k) :
    (firstFibs k).getD i 0 = (fib i : Int) := by
  simp [firstFibs, List.getD_eq_getElem?_getD, List.getElem?_map, List.getElem?_range, h]

theorem firstFibs_succ (k : Nat) :
    firstFibs (k + 1) = firstFibs k ++ [(fib k : Int)] := by
  simp [firstFibs, List.range_succ]

theorem fib_add_two (m : Nat) : fib (m + 2) = fib m + fib (m + 1) := rfl

theorem fibLoop_firstFibs : ∀ k m, 2 ≤ m → fibLoop k (firstFibs m) = firstFibs (m + k) := by
  intro k
  induction k with
  | zero => intro m hm; simp [fibLoop]
  | succ k ih =>
    intro m hm
    obtain ⟨p, rfl⟩ : ∃ p, m = p + 2 := ⟨m - 2, by omega⟩
    have hlen : (firstFibs (p + 2)).length = p + 2 := firstFibs_length (p + 2)
    have h1 : (firstFibs (p + 2)).getD (p + 1) 0 = (fib (p + 1) : Int) :=
      firstFibs_getD (p + 2) (p + 1) (by omega)
    have h2 : (firstFibs (p + 2)).getD p 0 = (fib p : Int) :=
      firstFibs_getD (p + 2) p (by omega)
    have hstep :
        fibLoop (k + 1) (firstFibs (p + 2))
          = fibLoop k (firstFibs (p + 2) ++ [(fib (p + 2) : Int)]) := by
      show fibLoop k (firstFibs (p + 2) ++
            [(firstFibs (p + 2)).getD ((firstFibs (p + 2)).length - 1) 0 +
             (firstFibs (p + 2)).getD ((firstFibs (p + 2)).length - 2) 0]) = _
      rw [hlen]
      have e1 : p + 2 - 1 = p + 1 := by omega
      have e2 : p + 2 - 2 = p := by omega
      rw [e1, e2, h1, h2]
      have : (fib (p + 2) : Int) = (fib (p + 1) : Int) + (fib p : Int) := by
        have := fib_add_two p
        push_cast [this]
        ring
      rw [this]
    rw [hstep, ← firstFibs_succ (p + 2), ih (p + 3) (by omega)]
    have : p + 3 + k = p + 2 + (k + 1) := by omega
    rw [this]

theorem valLE_decDigitsRevFuel :
    ∀ fuel n, n < fuel → valLE (decDigitsRevFuel fuel n) = n := by
  intro fuel
  induction fuel with
  | zero => intro n h; omega
  | succ f ih =>
    intro n h
    by_cases h10 : n < 10
    · simp [decDigitsRevFuel, h10, valLE]
    · have hd : n / 10 < n := Nat.div_lt_self (by omega) (by omega)
      have hf : n / 10 < f := by omega
      simp [decDigitsRevFuel, h10, valLE, ih _ hf]
      omega

theorem decDigitsRev_injective : ∀ a b, decDigitsRev a = decDigitsRev b → a = b := by
  intro a b h
  have ha := valLE_decDigitsRevFuel (a + 1) a (by omega)
  have hb := valLE_decDigitsRevFuel (b + 1) b (by omega)
  unfold decDigitsRev at h
  rw [← ha, ← hb, h]

theorem decDigitsRevFuel_lt : ∀ fuel n d, d ∈ decDigitsRevFuel fuel n → d < 10 := by
  intro fuel
  induction fuel with
  | zero => intro n d h; simp [decDigitsRevFuel] at h
  | succ f ih =>
    intro n d h
    by_cases h10 : n < 10
    · simp [decDigitsRevFuel, h10] at h; omega
    · simp [decDigitsRevFuel, h10] at h
      rcases h with h | h
      · omega
      · exact ih _ _ h

theorem digitChar_injOn :
    ∀ d1, d1 < 10 → ∀ d2, d2 < 10 → digitChar d1 = digitChar d2 → d1 = d2 := by
  decide

theorem map_digitChar_inj :
    ∀ l1 l2 : List Nat, (∀ d ∈ l1, d < 10) → (∀ d ∈ l2, d < 10) →
      l1.map digitChar = l2.map digitChar → l1 = l2 := by
  intro l1
  induction l1 with
  | nil =>
    intro l2 _ _ h
    cases l2 with
    | nil => rfl
    | cons b t2 => simp at h
  | cons a t ih =>
    intro l2 hl1 hl2 h
    cases l2 with
    | nil => simp at h
    | cons b t2 =>
      simp at h
      have hab := digitChar_injOn a (hl1 a (by simp)) b (hl2 b (by simp)) h.1
      rw [hab, ih t2 (fun d hd => hl1 d (by simp [hd])) (fun d hd => hl2 d (by simp [hd])) h.2]

theorem decStr_injective : ∀ a b, decStr a = decStr b → a = b := by
  intro a b h
  have hdata : (decDigitsRev a).reverse.map digitChar
      = (decDigitsRev b).reverse.map digitChar := congrArg String.data h
  have hrev : (decDigitsRev a).reverse = (decDigitsRev b).reverse :=
    map_digitChar_inj _ _
      (fun d hd => decDigitsRevFuel_lt _ _ d (by simpa using hd))
      (fun d hd => decDigitsRevFuel_lt _ _ d (by simpa using hd)) hdata
  have : decDigitsRev a = decDigitsRev b := by
    have h2 := congrArg List.reverse hrev
    simpa using h2
  exact decDigitsRev_injective a b this

theorem versionName_injective (d s : String) :
    ∀ c1 c2, versionName d s c1 = versionName d s c2 → c1 = c2 := by
  intro c1 c2 h
  apply decStr_injective
  have hdata := congrArg String.data h
  simp only [versionName, String.data_append, List.append_assoc] at hdata
  have h1 := List.append_cancel_left hdata
  have h2 := List.append_cancel_left h1
  have h3 := List.append_cancel_left h2
  have h4 := List.append_cancel_left h3
  have h5 := List.append_cancel_right h4
  exact String.ext h5

theorem exists_free_version (d s : String) (ex : List String) (c0 : Nat) :
    ∃ k, k < ex.length + 1 ∧ versionName d s (c0 + k) ∉ ex := by
  by_contra hcon
  push_neg at hcon
  have hinj : Function.Injective (fun k : Nat => versionName d s (c0 + k)) := by
    intro a b hab
    have := versionName_injective d s _ _ hab
    omega
  have hnd : ((List.range (ex.length + 1)).map
      (fun k => versionName d s (c0 + k))).Nodup :=
    (List.nodup_range _).map hinj
  have hsub : (List.range (ex.length + 1)).map (fun k => versionName d s (c0 + k)) ⊆ ex := by
    intro x hx
    simp only [List.mem_map, List.mem_range] at hx
    obtain ⟨k, hk, rfl⟩ := hx
    exact hcon k hk
  have hle := (List.subperm_of_subset hnd hsub).length_le
  simp at hle

theorem resolveLoop_not_mem (d s : String) (ex : List String) :
    ∀ fuel c, (∃ k, k < fuel ∧ versionName d s (c + k) ∉ ex) →
      resolveLoop d s ex fuel c ∉ ex := by
  intro fuel
  induction fuel with
  | zero =>
    intro c h
    obtain ⟨k, hk, _⟩ := h
    omega
  | succ f ih =>
    intro c h
    by_cases hmem : versionName d s c ∈ ex
    · have h2 : ∃ k, k < f ∧ versionName d s (c + 1 + k) ∉ ex := by
        obtain ⟨k, hk, hnot⟩ := h
        cases k with
        | zero => exact absurd hmem (by simpa using hnot)
        | succ k2 =>
          refine ⟨k2, by omega, ?_⟩
          have he : c + 1 + k2 = c + (k2 + 1) := by omega
          rw [he]
          exact hnot
      simp only [resolveLoop, if_pos hmem]
      exact ih (c + 1) h2
    · simp only [resolveLoop, if_neg hmem]
      exact hmem

/-- Claim C2: the writer never overwrites — the resolved output path is
never among the existing paths; with the base path free the first
invocation uses the base name, and a second invocation on the same date
(the base path now existing) uses the distinct `_v2` name. -/
theorem writer_no_overwrite :
    (∀ dateStr slug existing, resolvePath dateStr slug existing ∉ existing) ∧
    (∀ dateStr slug existing,
      baseName dateStr slug ∉ existing → versionName dateStr slug 2 ∉ existing →
      resolvePath dateStr slug existing = baseName dateStr slug ∧
      resolvePath dateStr slug (baseName dateStr slug :: existing)
        = versionName dateStr slug 2 ∧
      baseName dateStr slug ≠ versionName dateStr slug 2) := by
  constructor
  · intro d s ex
    unfold resolvePath
    by_cases hb : baseName d s ∈ ex
    · rw [if_pos hb]
      exact resolveLoop_not_mem d s ex (ex.length + 1) 2 (exists_free_version d s ex 2)
    · rw [if_neg hb]
      exact hb
  · intro d s ex hb hv2
    have a1 : ("_" : String).length = 1 := rfl
    have a2 : (".py" : String).length = 3 := rfl
    have a3 : ("_v" : String).length = 2 := rfl
    have a4 : (decStr 2).length = 1 := rfl
    have hne : baseName d s ≠ versionName d s 2 := by
      intro he
      have h := congrArg String.length he
      simp only [baseName, versionName, String.length_append, a1, a2, a3, a4] at h
      omega
    refine ⟨by simp [resolvePath, hb], ?_, hne⟩
    have hbmem : baseName d s ∈ baseName d s :: ex := by simp
    have hv2c : versionName d s 2 ∉ baseName d s :: ex := by
      simp only [List.mem_cons, not_or]
      exact ⟨fun he => hne he.symm, hv2⟩
    unfold resolvePath
    rw [if_pos hbmem]
    show resolveLoop d s (baseName d s :: ex) (ex.length + 1 + 1) 2 = versionName d s 2
    simp only [resolveLoop, if_neg hv2c]

/-- Witness for `writer_no_overwrite`: a fresh day, first invocation takes
the base path, second invocation takes the `_v2` path. -/
theorem writer_no_overwrite_witness :
    baseName "2024-01-01" "merge_sort" ∉ ([] : List String) ∧
    versionName "2024-01-01" "merge_sort" 2 ∉ ([] : List String) ∧
    resolvePath "2024-01-01" "merge_sort" [] = baseName "2024-01-01" "merge_sort" ∧
    resolvePath "2024-01-01" "merge_sort" [baseName "2024-01-01" "merge_sort"]
      = versionName "2024-01-01" "merge_sort" 2 :=
  ⟨by simp, by simp,
   (writer_no_overwrite.2 "2024-01-01" "merge_sort" [] (by simp) (by simp)).1,
   (writer_no_overwrite.2 "2024-01-01" "merge_sort" [] (by simp) (by simp)).2.1⟩

/-- Claim C6: the `fibonacci` function of the `fibonacci_iterative`
template returns the first `n` Fibonacci numbers for every `n ≥ 1`
(`[]` for `n ≤ 0`, `[0]` for `n = 1`), and for `N = 12` it returns
exactly `[0, 1, 1, 2, 3, 5, 8, 13, 21, 34, 55, 89]`. -/
theorem fibonacci_template_correct :
    (∀ n : Int, n ≤ 0 → pyFibonacci n = []) ∧
    pyFibonacci 1 = [0] ∧
    (∀ n : Int, 1 ≤ n → pyFibonacci n = firstFibs n.toNat) ∧
    pyFibonacci 12 = [0, 1, 1, 2, 3, 5, 8, 13, 21, 34, 55, 89] := by
  refine ⟨?_, by decide, ?_, by decide⟩
  · intro n h
    simp [pyFibonacci, h]
  · intro n h
    by_cases h1 : n = 1
    · subst h1; decide
    · have h0 : ¬ n ≤ 0 := by omega
      have h2 : 2 ≤ n := by omega
      show (if n ≤ 0 then [] else if n = 1 then [0] else fibLoop (n - 2).toNat [0, 1])
            = firstFibs n.toNat
      rw [if_neg h0, if_neg h1]
      have hbase : ([0, 1] : List Int) = firstFibs 2 := by decide
      rw [hbase, fibLoop_firstFibs _ 2 (by omega)]
      have : 2 + (n - 2).toNat = n.toNat := by omega
      rw [this]

/-- Witness for `fibonacci_template_correct` at `n = -3` and `n = 5`. -/
theorem fibonacci_template_correct_witness :
    ((-3 : Int) ≤ 0 ∧ pyFibonacci (-3) = []) ∧
    ((1 : Int) ≤ 5 ∧ pyFibonacci 5 = firstFibs (5 : Int).toNat) :=
  ⟨⟨by decide, fibonacci_template_correct.1 (-3) (by decide)⟩,
   ⟨by decide, fibonacci_template_correct.2.2.1 5 (by decide)⟩⟩

/-- Claim C3 (evidence of the defect): a realizable draw sequence —
`randint(4, 6)` returning 4 rows, a first row of 6 columns, then rows of 4
columns — makes the `dijkstra_on_grid` parameter generator produce a
non-rectangular GRID: row 1 is shorter than row 0, so the generated
`dijkstra` code, whose column bound is `len(grid[0]) = 6`, reads
`grid[1][4]` out of bounds when relaxing the neighbors of cell `(0, 4)`. -/
theorem dijkstra_grid_ragged :
    dijkstraParams ⟨fun n => if n = 1 then 2 else 0, 0⟩
      = [("GRID", PyVal.grid [[1, 1, 1, 1, 1, 1], [1, 1, 1, 1], [1, 1, 1, 1], [1, 1, 1, 1]])] ∧
    ([[1, 1, 1, 1, 1, 1], [1, 1, 1, 1], [1, 1, 1, 1], [1, 1, 1, 1]].headD ([] : List Int)).length = 6 ∧
    ([[1, 1, 1, 1, 1, 1], [1, 1, 1, 1], [1, 1, 1, 1], [1, 1, 1, 1]].getD 1 ([] : List Int)).length = 4 ∧
    ¬ (∀ row ∈ [[1, 1, 1, 1, 1, 1], [1, 1, 1, 1], [1, 1, 1, 1], [1, 1, 1, 1]],
        row.length
          = ([[1, 1, 1, 1, 1, 1], [1, 1, 1, 1], [1, 1, 1, 1], [1, 1, 1, 1]].headD ([] : List Int)).length) := by
  refine ⟨by decide, by decide, by decide, ?_⟩
  intro hall
  have h := hall [1, 1, 1, 1] (by simp)
  simp at h

theorem renderSegs_none :
    ∀ (segs : List Seg) (m : String → Option String) (n : String),
      Seg.hole n ∈ segs → m n = none → renderSegs segs m = none := by
  intro segs
  induction segs with
  | nil =>
    intro m n h _
    simp at h
  | cons seg rest ih =>
    intro m n h hm
    cases seg with
    | lit s =>
      have hr : Seg.hole n ∈ rest := by simpa using h
      simp [renderSegs, ih m n hr hm]
    | hole n2 =>
      rcases List.mem_cons.mp h with he | hr
      · have : n2 = n := by
          injection he with h2
          exact h2.symm
        rw [this]
        simp [renderSegs, hm]
      · cases hmn2 : m n2 with
        | none => simp [renderSegs, hmn2]
        | some v => simp [renderSegs, hmn2, ih m n hr hm]

/-- Claim C5: rendering yields an error whenever some placeholder of the
body has no entry in the parameter mapping, and the error propagates
unhandled through the whole write phase (nothing is written). -/
theorem render_missing_placeholder_fails :
    ∀ (t : Template) (m : String → Option String) (dateStr slug now : String)
      (files : List String) (index : String) (n : String),
      Seg.hole n ∈ t.code → m n = none →
      renderFile t m dateStr = none ∧
      mainModel t m dateStr slug now files index = none := by
  intro t m dateStr slug now files index n hseg hm
  have hr := renderSegs_none t.code m n hseg hm
  constructor
  · simp [renderFile, hr]
  · simp [mainModel, renderFile, hr]

/-- Witness for `render_missing_placeholder_fails`: the empty mapping on
the fibonacci template. -/
theorem render_missing_placeholder_fails_witness :
    Seg.hole "N" ∈ fibTemplate.code ∧
    (fun _ : String => (none : Option String)) "N" = none ∧
    renderFile fibTemplate (fun _ => none) "2024-01-01" = none ∧
    mainModel fibTemplate (fun _ => none) "2024-01-01" "fibonacci_iterative"
      "2024-01-01 00:00 UTC" [] "" = none :=
  ⟨by decide, rfl,
   (render_missing_placeholder_fails fibTemplate (fun _ => none) "2024-01-01"
      "fibonacci_iterative" "2024-01-01 00:00 UTC" [] "" "N" (by decide) rfl).1,
   (render_missing_placeholder_fails fibTemplate (fun _ => none) "2024-01-01"
      "fibonacci_iterative" "2024-01-01 00:00 UTC" [] "" "N" (by decide) rfl).2⟩

theorem braceFree_append (a b : String) (ha : braceFree a) (hb : braceFree b) :
    braceFree (a ++ b) := by
  intro c hc
  rw [String.data_append] at hc
  rcases List.mem_append.mp hc with h | h
  · exact ha c h
  · exact hb c h

theorem braceFree_lstrip (s : String) (h : braceFree s) : braceFree (lstripNL s) := by
  intro c hc
  exact h c ((List.dropWhile_suffix _).sublist.subset hc)

theorem litsBraceFree_of_all (segs : List Seg) (h : segs.all segLitBraceFreeB = true) :
    ∀ s, Seg.lit s ∈ segs → braceFree s := by
  intro s hs
  have := List.all_eq_true.mp h _ hs
  simpa [segLitBraceFreeB] using this

theorem renderSegs_braceFree :
    ∀ (segs : List Seg) (m : String → Option String),
      (∀ s, Seg.lit s ∈ segs → braceFree s) →
      (∀ n, Seg.hole n ∈ segs → ∃ v, m n = some v ∧ braceFree v) →
      ∃ out, renderSegs segs m = some out ∧ braceFree out := by
  intro segs
  induction segs with
  | nil =>
    intro m _ _
    exact ⟨"", rfl, by decide⟩
  | cons seg rest ih =>
    intro m hlit hhole
    obtain ⟨out, ho, hbf⟩ := ih m (fun s hs => hlit s (List.mem_cons_of_mem _ hs))
      (fun n hn => hhole n (List.mem_cons_of_mem _ hn))
    cases seg with
    | lit s =>
      have hs := hlit s (List.mem_cons_self _ _)
      exact ⟨s ++ out, by simp [renderSegs, ho], braceFree_append _ _ hs hbf⟩
    | hole n =>
      obtain ⟨v, hv, hbv⟩ := hhole n (List.mem_cons_self _ _)
      exact ⟨v ++ out, by simp [renderSegs, hv, ho], braceFree_append _ _ hbv hbf⟩

theorem headerFor_braceFree (name desc dateStr : String)
    (hn : braceFree (pyTitle name)) (hd : braceFree desc) (hds : braceFree dateStr) :
    braceFree (headerFor name desc dateStr) := by
  unfold headerFor
  exact braceFree_append _ _
    (braceFree_append _ _
      (braceFree_append _ _
        (braceFree_append _ _
          (braceFree_append _ _
            (braceFree_append _ _ (by decide) hn)
            (by decide))
          hds)
        (by decide))
      hd)
    (by decide)

theorem not_containsMarker_of_braceFree (out : String) (h : braceFree out) :
    ∀ nm, ¬ containsMarker out nm := by
  intro nm hc
  obtain ⟨pre, suf, hps⟩ := hc
  have hmem : Char.ofNat 123 ∈ out.data := by
    rw [← hps]
    simp [marker]
  exact (h _ hmem).1 rfl

theorem templates_lits_braceFree :
    ∀ t ∈ templates, ∀ s, Seg.lit s ∈ t.code → braceFree s := by
  have hall : templates.all (fun t => t.code.all segLitBraceFreeB) = true := by decide
  intro t ht
  exact litsBraceFree_of_all _ (List.all_eq_true.mp hall t ht)

theorem templates_header_braceFree :
    ∀ t ∈ templates, braceFree (pyTitle t.name) ∧ braceFree t.desc := by
  have hall : templates.all
      (fun t => decide (braceFree (pyTitle t.name)) && decide (braceFree t.desc)) = true := by
    decide
  intro t ht
  have := List.all_eq_true.mp hall t ht
  simpa using this

/-- Claim C4 (amended): for every registry template, every parameter
mapping that supplies a brace-free value for each placeholder of the body,
and a brace-free date string, rendering succeeds and the output (header
plus de-indented, substituted body) contains no brace characters, hence no
unresolved placeholder marker of the form `\x7bNAME\x7d`. -/
theorem render_no_unresolved_placeholders :
    ∀ t ∈ templates, ∀ (m : String → Option String) (dateStr : String),
      (∀ n, Seg.hole n ∈ t.code → ∃ v, m n = some v ∧ braceFree v) →
      braceFree dateStr →
      ∃ out, renderFile t m dateStr = some out ∧ braceFree out ∧
        ∀ nm, ¬ containsMarker out nm := by
  intro t ht m dateStr hm hds
  obtain ⟨body, hbody, hbf⟩ := renderSegs_braceFree t.code m (templates_lits_braceFree t ht) hm
  have hh := templates_header_braceFree t ht
  have hfull : braceFree (headerFor t.name t.desc dateStr ++ lstripNL body) :=
    braceFree_append _ _ (headerFor_braceFree _ _ _ hh.1 hh.2 hds) (braceFree_lstrip _ hbf)
  exact ⟨_, by simp [renderFile, hbody], hfull, not_containsMarker_of_braceFree _ hfull⟩

/-- Witness for `render_no_unresolved_placeholders`: the fibonacci template
with `N ↦ "12"` on 2024-01-01. -/
theorem render_no_unresolved_placeholders_witness :
    fibTemplate ∈ templates ∧ braceFree "2024-01-01" ∧
    ∃ out, renderFile fibTemplate (fun n => if n = "N" then some "12" else none)
        "2024-01-01" = some out ∧ braceFree out ∧ ∀ nm, ¬ containsMarker out nm := by
  refine ⟨by simp [templates], by decide, ?_⟩
  apply render_no_unresolved_placeholders fibTemplate (by simp [templates])
    (fun n => if n = "N" then some "12" else none) "2024-01-01"
  · intro n hn
    simp [fibTemplate, fibCode] at hn
    subst hn
    exact ⟨"12", rfl, by decide⟩
  · decide

/-- Claim C4 counterexample: the mapping `N ↦ "\x7bM\x7d"` supplies a value for
every placeholder of the fibonacci template body, yet the rendered output
contains the unresolved placeholder marker `\x7bM\x7d`. -/
theorem render_no_unresolved_placeholders_counterexample :
    coversB mapWithBraces fibTemplate.code = true ∧
    renderFile fibTemplate mapWithBraces "2024-01-01" ≠ none ∧
    containsMarker ((renderFile fibTemplate mapWithBraces "2024-01-01").getD "") "M" := by
  refine ⟨by decide, by decide, by decide⟩

/-- Claim C10: every template's parameter generator, on every generator
state, returns a mapping with an entry for every placeholder occurring in
that template's code body, so the renderer's missing-placeholder failure is
unreachable for registry-produced inputs. -/
theorem templates_params_cover :
    ∀ t ∈ templates, ∀ (r : RNG) (n : String),
      Seg.hole n ∈ t.code → (t.params r).lookup n ≠ none := by
  intro t ht r n hn
  simp only [templates, List.mem_cons, List.not_mem_nil, or_false] at ht
  rcases ht with rfl | rfl | rfl | rfl | rfl
  · simp [fibTemplate, fibCode] at hn
    subst hn
    simp [fibTemplate, fibParams, List.lookup]
  · simp [sieveTemplate, sieveCode] at hn
    subst hn
    simp [sieveTemplate, sieveParams, List.lookup]
  · simp [mergeSortTemplate, mergeSortCode] at hn
    subst hn
    simp [mergeSortTemplate, mergeSortParams, List.lookup]
  · simp [levTemplate, levCode] at hn
    rcases hn with rfl | rfl | rfl | rfl <;>
      simp [levTemplate, levParams, List.lookup]
  · simp [dijkstraTemplate, dijkstraCode] at hn
    subst hn
    simp [dijkstraTemplate, dijkstraParams, List.lookup]

/-- Witness for `templates_params_cover`: the fibonacci template, a
concrete generator state, placeholder `N`. -/
theorem templates_params_cover_witness :
    fibTemplate ∈ templates ∧ Seg.hole "N" ∈ fibTemplate.code ∧
    (fibTemplate.params ⟨fun _ => 0, 0⟩).lookup "N" ≠ none :=
  ⟨by simp [templates], by decide,
   templates_params_cover fibTemplate (by simp [templates]) ⟨fun _ => 0, 0⟩ "N" (by decide)⟩

end DailyGen
